import Mathlib

/-!
Shallow embedding of `gopro_overlay/widgets_map.py`: the map-widget rendering
pipeline (PerceptibleMovementCheck, JourneyMap, MovingMap, draw_marker,
rounded_corners) together with theorems settling the specification claims.

Python floats are modelled as rationals (`ℚ`), optional values (`None`) as
`Option`, and calls that would raise (e.g. arithmetic on `None`) as `none`
results of `Option`-valued functions.  PIL images are modelled two ways:
symbolically, as the tree of imaging operations applied (`Raster`), and
pixelwise for the alpha-channel claims (`PixelImage`).
-/

namespace GoproMap

/-- A geographic location whose coordinates are both defined, as manipulated by
`PerceptibleMovementCheck.moved` and by the marker projection. -/
structure Loc where
  lon : ℚ
  lat : ℚ
deriving DecidableEq

/-- A position as returned by the location source `self.location()`: either
coordinate may be `None` (no GPS fix yet), matching the
`location.lon is not None` checks in the source. -/
structure GeoPoint where
  lon : Option ℚ
  lat : Option ℚ
deriving DecidableEq

/-- The slice of the external `geotiler.Map` object that the widgets use: the
`geocode` pixel-to-geography conversion, the `rev_geocode`
geography-to-pixel conversion, and the raster `size`.  These are external
collaborators; they are kept fully abstract as functions. -/
structure GMap where
  geocode : ℚ × ℚ → ℚ × ℚ
  rev_geocode : ℚ × ℚ → ℚ × ℚ
  size : ℚ × ℚ

/-- Python `int()` applied to a rational value truncates toward zero. -/
def pyInt (q : ℚ) : ℤ := if 0 ≤ q then ⌊q⌋ else ⌈q⌉

namespace PerceptibleMovementCheck

/-- The mutable state of `PerceptibleMovementCheck`: `self.last_location`,
initialised to `None` in `__init__` (line 13). -/
structure State where
  last_location : Option Loc
deriving DecidableEq

/-- The per-axis resolution computed at the start of `moved` (lines 16-20):
geocode the centre pixel and the pixel one step diagonally away, and take the
componentwise absolute differences (`x` is longitude, `y` is latitude). -/
def resolution (m : GMap) : ℚ × ℚ :=
  let location_of_centre_pixel := m.geocode (m.size.1 / 2, m.size.2 / 2)
  let location_of_one_pixel_away := m.geocode (m.size.1 / 2 + 1, m.size.2 / 2 + 1)
  (|location_of_one_pixel_away.1 - location_of_centre_pixel.1|,
   |location_of_one_pixel_away.2 - location_of_centre_pixel.2|)

/-- Embeds `PerceptibleMovementCheck.moved` (lines 15-30), returning the boolean
result paired with the state after the call.  When a last location is stored
and both deltas are strictly below the respective resolution component the
call returns `False` without touching the state; otherwise it stores the new
location and returns `True`. -/
def moved (s : State) (m : GMap) (location : Loc) : Bool × State :=
  let x_resolution := (resolution m).1
  let y_resolution := (resolution m).2
  match s.last_location with
  | some last =>
    let x_diff := |last.lon - location.lon|
    let y_diff := |last.lat - location.lat|
    if x_diff < x_resolution ∧ y_diff < y_resolution then
      (false, s)
    else
      (true, ⟨some location⟩)
  | none => (true, ⟨some location⟩)

lemma moved_false_eq (s : State) (m : GMap) (location : Loc)
    (h : (moved s m location).1 = false) :
    (moved s m location).2 = s ∧ s.last_location.isSome = true := by
  unfold moved at h ⊢
  rcases hl : s.last_location with _ | last <;> simp only [hl] at h ⊢
  · simp at h
  · by_cases hc : |last.lon - location.lon| < (resolution m).1 ∧
        |last.lat - location.lat| < (resolution m).2
    · simp [hc]
    · simp [hc] at h

lemma moved_true_eq (s : State) (m : GMap) (location : Loc)
    (h : (moved s m location).1 = true) :
    (moved s m location).2 = ⟨some location⟩ := by
  unfold moved at h ⊢
  rcases hl : s.last_location with _ | last <;> simp only [hl] at h ⊢
  by_cases hc : |last.lon - location.lon| < (resolution m).1 ∧
      |last.lat - location.lat| < (resolution m).2
  · simp [hc] at h
  · simp [hc]

end PerceptibleMovementCheck

/-- Symbolic model of a PIL image: the tree of imaging operations applied to
it.  `rendered` stands for a raw raster returned by the external tile
renderer; the other constructors mirror the drawing-surface operations the
widgets consume. -/
inductive Raster where
  | rendered : Raster
  | marked (r : Raster) (position : ℚ × ℚ) (msize : ℚ) : Raster
  | rotated (r : Raster) (angle : ℚ) : Raster
  | cropped (r : Raster) (box : ℚ × ℚ × ℚ × ℚ) : Raster
  | bordered (r : Raster) : Raster
  | withAlpha (r : Raster) (a : ℤ) : Raster
  | roundedAlpha (r : Raster) (radius : ℚ) (opacity : ℚ) : Raster
  | copied (r : Raster) : Raster
deriving DecidableEq

/-- Embeds `draw_marker` (lines 103-107): draws the filled position-marker ellipse of
half-size `msize` centred at `position` onto the raster. -/
def draw_marker (r : Raster) (position : ℚ × ℚ) (msize : ℚ) : Raster :=
  .marked r position msize

/-- Does the operation tree contain a `draw_marker` application? -/
def hasMarker : Raster → Bool
  | .rendered => false
  | .marked _ _ _ => true
  | .rotated r _ => hasMarker r
  | .cropped r _ => hasMarker r
  | .bordered r => hasMarker r
  | .withAlpha r _ => hasMarker r
  | .roundedAlpha r _ _ => hasMarker r
  | .copied r => hasMarker r

/-- A side effect on the destination frame: `image.paste(raster, position)`. -/
inductive Event where
  | paste (r : Raster) (pos : ℤ × ℤ) : Event
deriving DecidableEq

namespace MovingMap

/-- The configuration fields set in `MovingMap.__init__` (lines 111-121):
paste offset, whether to rotate with the heading, output size, zoom,
optional corner radius and opacity. -/
structure Config where
  at_pos : ℤ × ℤ
  rotate : Bool
  size : ℕ
  zoom : ℕ
  corner_radius : Option ℚ
  opacity : ℚ

/-- Embeds `self.hypotenuse = int(math.sqrt((self.size ** 2) * 2))` (line 122):
the real square root of the natural number `size² · 2`, truncated to an
integer, is the natural-number square root. -/
def hypotenuse (size : ℕ) : ℕ := Nat.sqrt (size ^ 2 * 2)

/-- Embeds `self.half_width_height = self.hypotenuse / 2` (line 124), Python float
division. -/
def half_width_height (size : ℕ) : ℚ := (hypotenuse size : ℚ) / 2

/-- Embeds `self.bounds` (lines 126-131): the centred `size × size` crop rectangle
inside the `hypotenuse × hypotenuse` raster. -/
def bounds (size : ℕ) : ℚ × ℚ × ℚ × ℚ :=
  (half_width_height size - (size : ℚ) / 2,
   half_width_height size - (size : ℚ) / 2,
   half_width_height size + (size : ℚ) / 2,
   half_width_height size + (size : ℚ) / 2)

/-- The mutable state of a `MovingMap`: the movement check (`self.perceptible`)
and the cached raster (`self.cached`), both set up in `__init__`
(lines 132-133). -/
structure State where
  perceptible : PerceptibleMovementCheck.State
  cached : Option Raster
deriving DecidableEq

/-- The state right after `MovingMap.__init__`: no last location, no cache. -/
def initState : State := ⟨⟨none⟩, none⟩

/-- Embeds `MovingMap._redraw` (lines 135-170): render the raw map, draw the centre
marker, optionally rotate by the normalised azimuth (Python truthiness makes a
`None` or zero-magnitude azimuth skip the rotate), crop to `self.bounds`, then
finish with either the rounded-corner mask plus outline or the plain
rectangular outline plus `putalpha(int(255 * opacity))` (a zero corner radius
is falsy and takes the plain branch). -/
def _redraw (cfg : Config) (renderer : GMap → Raster) (azimuth : Option ℚ)
    (m : GMap) : Raster :=
  let map_image := renderer m
  let map_image := draw_marker map_image
    (half_width_height cfg.size, half_width_height cfg.size) 6
  let map_image :=
    match azimuth with
    | some azi =>
      if azi ≠ 0 ∧ cfg.rotate = true then
        Raster.rotated map_image (if 0 ≤ azi then 0 + azi else 360 + azi)
      else map_image
    | none => map_image
  let crop := Raster.cropped map_image (bounds cfg.size)
  match cfg.corner_radius with
  | some radius =>
    if radius ≠ 0 then
      Raster.bordered (Raster.roundedAlpha crop radius cfg.opacity)
    else
      Raster.withAlpha (Raster.bordered crop) (pyInt (255 * cfg.opacity))
  | none =>
    Raster.withAlpha (Raster.bordered crop) (pyInt (255 * cfg.opacity))

/-- Embeds `MovingMap.draw` (lines 172-182).  `mkMap` is the external
`geotiler.Map(center=..., zoom=..., size=...)` constructor.  The result is
`none` when the code would crash (pasting a `None` cache); otherwise it is the
state after the call together with the paste events issued on the destination
frame. -/
def draw (cfg : Config) (mkMap : ℚ × ℚ → ℕ → ℚ × ℚ → GMap)
    (renderer : GMap → Raster) (azimuth : Option ℚ) (location : GeoPoint)
    (s : State) : Option (State × List Event) :=
  match location.lon, location.lat with
  | some lon, some lat =>
    let m := mkMap (lon, lat) cfg.zoom
      ((hypotenuse cfg.size : ℚ), (hypotenuse cfg.size : ℚ))
    let r := PerceptibleMovementCheck.moved s.perceptible m ⟨lon, lat⟩
    let cached := if r.1 then some (_redraw cfg renderer azimuth m) else s.cached
    match cached with
    | some c => some (⟨r.2, some c⟩, [Event.paste c cfg.at_pos])
    | none => none
  | _, _ => some (s, [])

/-- The cache-presence invariant: whenever a last location is stored in the
movement check, a cached raster is present. -/
def Inv (s : State) : Prop :=
  s.perceptible.last_location.isSome = true → s.cached.isSome = true

end MovingMap

namespace JourneyMap

/-- The `plots` list comprehension of `JourneyMap._init_maybe` (lines 61-64),
translated as a direct recursion over the journey's locations: project each
location not enclosed by the privacy zone through `rev_geocode`, keeping the
original order. -/
def plots (m : GMap) (encloses : Loc → Bool) : List Loc → List (ℚ × ℚ)
  | [] => []
  | l :: ls =>
    if encloses l then plots m encloses ls
    else m.rev_geocode (l.lon, l.lat) :: plots m encloses ls

/-- Embeds `JourneyMap.draw` (lines 89-100) in the already-initialised state, i.e.
after `_init_maybe` has populated `self.map` with `m` and `self.image` with
`backdrop`: copy the backdrop, project the live position through
`rev_geocode`, draw the marker on the copy, paste the copy.  The result is
`none` when the code would crash: `rev_geocode` is applied to the raw
coordinate pair with no guard, so an undefined coordinate raises. -/
def draw (at_pos : ℤ × ℤ) (m : GMap) (backdrop : Raster)
    (location : GeoPoint) : Option (List Event) :=
  match location.lon, location.lat with
  | some lon, some lat =>
    let frame := Raster.copied backdrop
    let current := m.rev_geocode (lon, lat)
    let frame := draw_marker frame current 6
    some [Event.paste frame at_pos]
  | _, _ => none

end JourneyMap

/-- Pixel-level model of a PIL `RGBA` image, for the alpha-channel claims:
the colour bands and the alpha band as functions of the pixel coordinate. -/
structure PixelImage where
  colour : ℕ × ℕ → ℤ × ℤ × ℤ
  alphaCh : ℕ × ℕ → ℤ

/-- Embeds `Image.putalpha(v)` with an integer argument: the alpha band of every
pixel is set to `v`; the colour bands are unchanged. -/
def putalpha (img : PixelImage) (v : ℤ) : PixelImage :=
  { img with alphaCh := fun _ => v }

/-- Whether a pixel lies on the plain rectangular outline drawn by
`draw.line((0, 0, 0, size-1, size-1, size-1, size-1, 0, 0, 0))`. -/
def onOutline (size : ℕ) (p : ℕ × ℕ) : Bool :=
  decide (p.1 = 0 ∨ p.2 = 0 ∨ p.1 = size - 1 ∨ p.2 = size - 1)

/-- The no-corner-radius branch of the Mask/Frame Finisher, as it appears both
in `MovingMap._redraw` (lines 157-168) and in `JourneyMap._init_maybe`
(lines 80-85): draw the plain rectangular outline, then
`putalpha(int(255 * opacity))`. -/
def finishNoRadius (size : ℕ) (opacity : ℚ) (img : PixelImage) : PixelImage :=
  let withOutline : PixelImage :=
    { img with colour := fun p => if onOutline size p then (0, 0, 0) else img.colour p }
  putalpha withOutline (pyInt (255 * opacity))

/-- A fixed concrete map whose `geocode` is the identity, so that the
per-axis resolution is `(1, 1)`; used to instantiate universally quantified
theorems. -/
def gmap1 : GMap := ⟨fun p => p, fun p => p, (256, 256)⟩

/-- A degenerate concrete map whose `geocode` is constant, so that the
per-axis resolution is `(0, 0)`. -/
def degenerateMap : GMap := ⟨fun _ => (0, 0), fun _ => (0, 0), (256, 256)⟩

/-- A concrete `geotiler.Map` constructor handing back `gmap1` with the
requested size. -/
def mkMap1 : ℚ × ℚ → ℕ → ℚ × ℚ → GMap :=
  fun _ _ sz => ⟨fun p => p, fun p => p, sz⟩

/-- A concrete tile renderer returning a raw raster. -/
def renderer1 : GMap → Raster := fun _ => Raster.rendered

/-- A concrete moving-map configuration matching the constructor defaults:
rotate, size 256, zoom 17, no corner radius, opacity 0.7. -/
def cfg1 : MovingMap.Config := ⟨(10, 20), true, 256, 17, none, 7 / 10⟩

/-- A concrete pixel image with constant colour and zero alpha. -/
def img1 : PixelImage := ⟨fun _ => (5, 5, 5), fun _ => 0⟩

namespace PerceptibleMovementCheck

lemma moved_some (last : Loc) (s : State) (hlast : s.last_location = some last)
    (m : GMap) (location : Loc) :
    moved s m location =
      if |last.lon - location.lon| < (resolution m).1 ∧
          |last.lat - location.lat| < (resolution m).2 then
        (false, s)
      else
        (true, ⟨some location⟩) := by
  unfold moved
  rw [hlast]

/-- The identity-geocode view has per-axis resolution `(1, 1)`. -/
lemma resolution_gmap1 : resolution gmap1 = (1, 1) := by
  unfold resolution gmap1
  norm_num

/-- The constant-geocode view has per-axis resolution `(0, 0)`. -/
lemma resolution_degenerateMap : resolution degenerateMap = (0, 0) := by
  unfold resolution degenerateMap
  norm_num

end PerceptibleMovementCheck

/-- Every view built by `mkMap1` has identity geocode, hence per-axis
resolution `(1, 1)` whatever the requested centre, zoom and size. -/
lemma resolution_mkMap1 (c : ℚ × ℚ) (z : ℕ) (sz : ℚ × ℚ) :
    PerceptibleMovementCheck.resolution (mkMap1 c z sz) = (1, 1) := by
  unfold PerceptibleMovementCheck.resolution mkMap1
  norm_num

/-- C5: with a stored last position, `moved` returns `False` ("not moved")
exactly when both the longitude delta and the latitude delta are strictly
below the respective per-axis resolution components; in particular a delta
exactly equal to the resolution on either axis yields `True` ("moved"). -/
theorem C5_threshold_boundary (s : PerceptibleMovementCheck.State) (m : GMap)
    (location last : Loc) (hlast : s.last_location = some last) :
    ((PerceptibleMovementCheck.moved s m location).1 = false ↔
      |last.lon - location.lon| < (PerceptibleMovementCheck.resolution m).1 ∧
      |last.lat - location.lat| < (PerceptibleMovementCheck.resolution m).2) ∧
    ((|last.lon - location.lon| = (PerceptibleMovementCheck.resolution m).1 ∨
      |last.lat - location.lat| = (PerceptibleMovementCheck.resolution m).2) →
      (PerceptibleMovementCheck.moved s m location).1 = true) := by
  rw [PerceptibleMovementCheck.moved_some last s hlast]
  by_cases hc : |last.lon - location.lon| < (PerceptibleMovementCheck.resolution m).1 ∧
      |last.lat - location.lat| < (PerceptibleMovementCheck.resolution m).2
  · refine ⟨by simp [hc], ?_⟩
    rintro (he | he)
    · exact absurd hc.1 (by rw [he]; exact lt_irrefl _)
    · exact absurd hc.2 (by rw [he]; exact lt_irrefl _)
  · simp [hc]

/-- Witness for C5 at a concrete state, view and point: last position
`(0, 0)`, identity-geocode view of resolution `(1, 1)`, new point `(1, 0)`
whose longitude delta equals the resolution, hence "moved". -/
theorem C5_threshold_boundary_witness :
    (((PerceptibleMovementCheck.moved ⟨some ⟨0, 0⟩⟩ gmap1 ⟨1, 0⟩).1 = false ↔
      |(0 : ℚ) - 1| < (PerceptibleMovementCheck.resolution gmap1).1 ∧
      |(0 : ℚ) - 0| < (PerceptibleMovementCheck.resolution gmap1).2) ∧
    ((|(0 : ℚ) - 1| = (PerceptibleMovementCheck.resolution gmap1).1 ∨
      |(0 : ℚ) - 0| = (PerceptibleMovementCheck.resolution gmap1).2) →
      (PerceptibleMovementCheck.moved ⟨some ⟨0, 0⟩⟩ gmap1 ⟨1, 0⟩).1 = true)) :=
  C5_threshold_boundary ⟨some ⟨0, 0⟩⟩ gmap1 ⟨1, 0⟩ ⟨0, 0⟩ rfl

/-- C6 as stated fails: for the degenerate view whose geocode is constant the
per-axis resolution is `(0, 0)`, and the second of two consecutive `moved`
calls with the same point returns `True` ("moved"), not `False`. -/
theorem C6_counterexample :
    (PerceptibleMovementCheck.moved ⟨none⟩ degenerateMap ⟨0, 0⟩).1 = true ∧
    (PerceptibleMovementCheck.moved
      (PerceptibleMovementCheck.moved ⟨none⟩ degenerateMap ⟨0, 0⟩).2
      degenerateMap ⟨0, 0⟩).1 = true := by
  refine ⟨rfl, ?_⟩
  have h2 : (PerceptibleMovementCheck.moved ⟨none⟩ degenerateMap ⟨0, 0⟩).2 =
      ⟨some ⟨0, 0⟩⟩ := rfl
  rw [h2, PerceptibleMovementCheck.moved_some ⟨0, 0⟩ _ rfl,
    if_neg (by simp [PerceptibleMovementCheck.resolution_degenerateMap])]

/-- C6 amended: provided both per-axis resolution components of the view are
positive, two consecutive `moved` calls with the same point and the same view,
starting from the initial state, yield "moved" then "not moved". -/
theorem C6_idempotence (m : GMap) (location : Loc)
    (hx : 0 < (PerceptibleMovementCheck.resolution m).1)
    (hy : 0 < (PerceptibleMovementCheck.resolution m).2) :
    (PerceptibleMovementCheck.moved ⟨none⟩ m location).1 = true ∧
    (PerceptibleMovementCheck.moved
      (PerceptibleMovementCheck.moved ⟨none⟩ m location).2 m location).1 = false := by
  refine ⟨rfl, ?_⟩
  have h2 : (PerceptibleMovementCheck.moved ⟨none⟩ m location).2 =
      ⟨some location⟩ := rfl
  rw [h2, PerceptibleMovementCheck.moved_some location ⟨some location⟩ rfl,
    if_pos ⟨by simpa using hx, by simpa using hy⟩]

/-- Witness for C6 amended: the identity-geocode view has resolution
`(1, 1)`. -/
theorem C6_idempotence_witness :
    (PerceptibleMovementCheck.moved ⟨none⟩ gmap1 ⟨3, 4⟩).1 = true ∧
    (PerceptibleMovementCheck.moved
      (PerceptibleMovementCheck.moved ⟨none⟩ gmap1 ⟨3, 4⟩).2 gmap1 ⟨3, 4⟩).1 = false :=
  C6_idempotence gmap1 ⟨3, 4⟩
    (by rw [PerceptibleMovementCheck.resolution_gmap1]; norm_num)
    (by rw [PerceptibleMovementCheck.resolution_gmap1]; norm_num)

/-- C7: a `moved` call that returns `False` leaves the stored last position
unchanged, and a call that returns `True` overwrites it with the new point —
so the stored position is mutated exactly on the calls returning "moved". -/
theorem C7_reject_no_mutation (s : PerceptibleMovementCheck.State) (m : GMap)
    (location : Loc) :
    ((PerceptibleMovementCheck.moved s m location).1 = false →
      (PerceptibleMovementCheck.moved s m location).2 = s) ∧
    ((PerceptibleMovementCheck.moved s m location).1 = true →
      (PerceptibleMovementCheck.moved s m location).2 = ⟨some location⟩) :=
  ⟨fun h => (PerceptibleMovementCheck.moved_false_eq s m location h).1,
   fun h => PerceptibleMovementCheck.moved_true_eq s m location h⟩

/-- Witness for C7 at a concrete rejecting call: same point as the stored one
under the identity-geocode view, so the call returns `False` and the state is
unchanged. -/
theorem C7_reject_no_mutation_witness :
    (PerceptibleMovementCheck.moved ⟨some ⟨0, 0⟩⟩ gmap1 ⟨0, 0⟩).2 =
      (⟨some ⟨0, 0⟩⟩ : PerceptibleMovementCheck.State) :=
  (C7_reject_no_mutation ⟨some ⟨0, 0⟩⟩ gmap1 ⟨0, 0⟩).1 (by
    rw [PerceptibleMovementCheck.moved_some ⟨0, 0⟩ _ rfl,
      if_pos ⟨by simp [PerceptibleMovementCheck.resolution_gmap1],
        by simp [PerceptibleMovementCheck.resolution_gmap1]⟩])

/-- C8: the projected polyline consists of exactly the `rev_geocode`
projections of the locations not enclosed by the privacy zone, in their
original relative order — enclosed locations are omitted. -/
theorem C8_privacy_filtering (m : GMap) (encloses : Loc → Bool)
    (ls : List Loc) :
    JourneyMap.plots m encloses ls =
      (ls.filter fun l => !encloses l).map fun l => m.rev_geocode (l.lon, l.lat) := by
  induction ls with
  | nil => rfl
  | cons l ls ih => cases h : encloses l <;> simp [JourneyMap.plots, h, ih]

lemma hypotenuse_256 : MovingMap.hypotenuse 256 = 362 := by
  unfold MovingMap.hypotenuse
  have h : (256 : ℕ) ^ 2 * 2 = 131072 := by norm_num
  rw [h]
  exact (Nat.eq_sqrt'.mpr (by norm_num)).symm

/-- C1 as stated fails at size 256: the code truncates (`int(math.sqrt(...))`),
so the oversized render dimension is 362 = ⌊√2·256⌋, not ⌈√2·256⌉ = 363, and
362 < 256·√2. -/
theorem C1_counterexample :
    MovingMap.hypotenuse 256 = 362 ∧
    MovingMap.hypotenuse 256 ≠ ⌈Real.sqrt 2 * 256⌉₊ ∧
    ¬ ((MovingMap.hypotenuse 256 : ℝ) ≥ 256 * Real.sqrt 2) := by
  have hsq : Real.sqrt 2 ^ 2 = 2 := Real.sq_sqrt (by norm_num)
  have hnn : (0 : ℝ) ≤ Real.sqrt 2 := Real.sqrt_nonneg 2
  have hlt : (362 : ℝ) < 256 * Real.sqrt 2 := by nlinarith [hsq, hnn]
  have hub : 256 * Real.sqrt 2 ≤ 363 := by nlinarith [hsq, hnn]
  refine ⟨hypotenuse_256, ?_, ?_⟩
  · rw [hypotenuse_256]
    have hceil : ⌈Real.sqrt 2 * 256⌉₊ = 363 := by
      rw [Nat.ceil_eq_iff (by norm_num)]
      constructor
      · push_cast
        rw [mul_comm]
        linarith [hlt]
      · push_cast
        rw [mul_comm]
        exact hub
    rw [hceil]
    norm_num
  · rw [hypotenuse_256]
    push_cast
    linarith [hlt]

/-- C1 amended: for every positive size the oversized render dimension equals
⌊√2·size⌋ (floor, not ceil), hence is strictly smaller than size·√2, so a
worst-case rotation can expose up to a fraction of a pixel of undrawn
padding in the centred crop. -/
theorem C1_hypotenuse_floor (size : ℕ) (hpos : 0 < size) :
    MovingMap.hypotenuse size = ⌊(size : ℝ) * Real.sqrt 2⌋₊ ∧
    (MovingMap.hypotenuse size : ℝ) < (size : ℝ) * Real.sqrt 2 := by
  have hs2 : Real.sqrt ((size ^ 2 * 2 : ℕ) : ℝ) = (size : ℝ) * Real.sqrt 2 := by
    push_cast
    rw [Real.sqrt_mul (by positivity) 2, Real.sqrt_sq (by positivity)]
  constructor
  · unfold MovingMap.hypotenuse
    rw [← Real.nat_floor_real_sqrt_eq_nat_sqrt, hs2]
  · have hle : (MovingMap.hypotenuse size : ℝ) ≤ (size : ℝ) * Real.sqrt 2 := by
      unfold MovingMap.hypotenuse
      rw [← hs2]
      exact Real.nat_sqrt_le_real_sqrt
    refine lt_of_le_of_ne hle ?_
    intro heq
    have hszero : ((size : ℝ)) ≠ 0 := by positivity
    refine irrational_sqrt_two
      ⟨(MovingMap.hypotenuse size : ℚ) / (size : ℚ), ?_⟩
    push_cast
    rw [div_eq_iff hszero, mul_comm]
    exact heq

/-- Witness for C1 amended at size 3: hypotenuse 3 = 4 = ⌊3·√2⌋ < 3·√2. -/
theorem C1_hypotenuse_floor_witness :
    0 < 3 ∧
    (MovingMap.hypotenuse 3 = ⌊((3 : ℕ) : ℝ) * Real.sqrt 2⌋₊ ∧
      (MovingMap.hypotenuse 3 : ℝ) < ((3 : ℕ) : ℝ) * Real.sqrt 2) :=
  ⟨by norm_num, C1_hypotenuse_floor 3 (by norm_num)⟩

/-- C3, code behaviour at an undefined live position: `JourneyMap.draw`
applies `rev_geocode` to the raw coordinate pair with no guard, so it raises
instead of pasting the backdrop with the marker skipped — no paste event
reaches the destination frame. -/
theorem C3_no_guard_crash :
    JourneyMap.draw (0, 0) gmap1 Raster.rendered ⟨none, some 5⟩ = none ∧
    JourneyMap.draw (0, 0) gmap1 Raster.rendered ⟨some 5, none⟩ = none ∧
    JourneyMap.draw (0, 0) gmap1 Raster.rendered ⟨none, none⟩ = none :=
  ⟨rfl, rfl, rfl⟩

/-- C4 as stated fails at opacity 1/2: `putalpha(int(255 * 0.5))` sets every
alpha to 127 = ⌊127.5⌋, while round(0.5·255) = 128. -/
theorem C4_counterexample :
    (finishNoRadius 256 (1 / 2) img1).alphaCh (3, 4) ≠ round ((1 / 2 : ℚ) * 255) := by
  have h1 : (finishNoRadius 256 (1 / 2) img1).alphaCh (3, 4) = 127 := by
    show pyInt (255 * (1 / 2)) = 127
    unfold pyInt
    rw [if_pos (by norm_num)]
    norm_num
  have h2 : round ((1 / 2 : ℚ) * 255) = 128 := by
    rw [round_eq]
    norm_num
  rw [h1, h2]
  norm_num

/-- C4 amended: for every nonnegative opacity, the no-corner-radius finisher
sets the alpha channel uniformly to ⌊o·255⌋ (Python `int` truncation, not
rounding) at every pixel. -/
theorem C4_uniform_alpha (size : ℕ) (opacity : ℚ) (img : PixelImage)
    (p : ℕ × ℕ) (h : 0 ≤ opacity) :
    (finishNoRadius size opacity img).alphaCh p = ⌊255 * opacity⌋ := by
  show pyInt (255 * opacity) = ⌊255 * opacity⌋
  unfold pyInt
  rw [if_pos (by positivity)]

/-- Witness for C4 amended at opacity 0.7 and pixel `(0, 0)`. -/
theorem C4_uniform_alpha_witness :
    (0 : ℚ) ≤ 7 / 10 ∧
    (finishNoRadius 256 (7 / 10) img1).alphaCh (0, 0) = ⌊(255 : ℚ) * (7 / 10)⌋ :=
  ⟨by norm_num, C4_uniform_alpha 256 (7 / 10) img1 (0, 0) (by norm_num)⟩

/-- Every raster produced by `MovingMap._redraw` contains the marker: it is
drawn unconditionally right after the tile render, before rotating, cropping
and masking. -/
lemma hasMarker_redraw (cfg : MovingMap.Config) (renderer : GMap → Raster)
    (azimuth : Option ℚ) (m : GMap) :
    hasMarker (MovingMap._redraw cfg renderer azimuth m) = true := by
  unfold MovingMap._redraw draw_marker
  rcases azimuth with _ | azi <;> rcases hcr : cfg.corner_radius with _ | radius <;>
    simp only [hcr] <;> try split_ifs
  all_goals simp [hasMarker]

/-- C2 as stated fails: after a single draw from the initial state, the
Cached Raster itself contains the marker — the cache is
marker-contaminated. -/
theorem C2_counterexample :
    ((MovingMap.draw cfg1 mkMap1 renderer1 none ⟨some 0, some 0⟩
      MovingMap.initState).bind fun r => r.1.cached.map hasMarker) = some true := rfl

/-- C2 amended: on every draw with a defined position that triggers a redraw
(the movement check reports "moved", which covers both a first-ever draw and a
perceptible move away from a stored last position), the marker is baked into
the raster during `_redraw` and stored in the cache; the draw then pastes the
Cached Raster itself onto the destination frame — the paste event carries
exactly the raster held in the cache, and that raster contains the marker. -/
theorem C2_marker_in_cache (cfg : MovingMap.Config)
    (mkMap : ℚ × ℚ → ℕ → ℚ × ℚ → GMap) (renderer : GMap → Raster)
    (azimuth : Option ℚ) (lon lat : ℚ) (s : MovingMap.State)
    (hredraw : (PerceptibleMovementCheck.moved s.perceptible
      (mkMap (lon, lat) cfg.zoom
        ((MovingMap.hypotenuse cfg.size : ℚ), (MovingMap.hypotenuse cfg.size : ℚ)))
      ⟨lon, lat⟩).1 = true) :
    ∃ c, MovingMap.draw cfg mkMap renderer azimuth ⟨some lon, some lat⟩ s =
        some (⟨⟨some ⟨lon, lat⟩⟩, some c⟩, [Event.paste c cfg.at_pos]) ∧
      hasMarker c = true := by
  have hstate := PerceptibleMovementCheck.moved_true_eq _ _ _ hredraw
  refine ⟨MovingMap._redraw cfg renderer azimuth
    (mkMap (lon, lat) cfg.zoom
      ((MovingMap.hypotenuse cfg.size : ℚ), (MovingMap.hypotenuse cfg.size : ℚ))),
    ?_, hasMarker_redraw cfg renderer azimuth _⟩
  unfold MovingMap.draw
  simp [hredraw, hstate]

/-- Witness for C2 amended at the concrete configuration, from a state that
already stores a last position `(100, 100)` and a cached raster: the new point
`(0, 0)` is a perceptible move under the identity-geocode view (resolution
`(1, 1)`), so this draw triggers a redraw. -/
theorem C2_marker_in_cache_witness :
    ∃ c, MovingMap.draw cfg1 mkMap1 renderer1 none ⟨some 0, some 0⟩
        ⟨⟨some ⟨100, 100⟩⟩, some Raster.rendered⟩ =
        some (⟨⟨some ⟨0, 0⟩⟩, some c⟩, [Event.paste c cfg1.at_pos]) ∧
      hasMarker c = true :=
  C2_marker_in_cache cfg1 mkMap1 renderer1 none 0 0
    ⟨⟨some ⟨100, 100⟩⟩, some Raster.rendered⟩
    (by rw [PerceptibleMovementCheck.moved_some ⟨100, 100⟩ _ rfl,
      if_neg (by rw [resolution_mkMap1]; norm_num)])

/-- C9: a Moving Map draw whose current position has an undefined longitude
or latitude performs no paste on the destination frame and leaves both the
Cached Raster and the movement-check state unchanged. -/
theorem C9_no_fix_noop (cfg : MovingMap.Config)
    (mkMap : ℚ × ℚ → ℕ → ℚ × ℚ → GMap) (renderer : GMap → Raster)
    (azimuth : Option ℚ) (location : GeoPoint) (s : MovingMap.State)
    (h : location.lon = none ∨ location.lat = none) :
    MovingMap.draw cfg mkMap renderer azimuth location s = some (s, []) := by
  unfold MovingMap.draw
  rcases h with h | h
  · rw [h]
  · rw [h]
    rcases location.lon with _ | v <;> rfl

/-- Witness for C9 at a position with undefined longitude. -/
theorem C9_no_fix_noop_witness :
    MovingMap.draw cfg1 mkMap1 renderer1 none ⟨none, some 1⟩
      MovingMap.initState = some (MovingMap.initState, []) :=
  C9_no_fix_noop cfg1 mkMap1 renderer1 none ⟨none, some 1⟩ MovingMap.initState
    (Or.inl rfl)

/-- C10: the cache-presence invariant (a stored last position implies a
cached raster) holds in the initial state, and under it every draw call
returns normally and preserves it — in particular whenever the paste is
reached the Cached Raster is present, because a draw with a defined position
and no stored last position necessarily reports "moved" and populates the
cache before pasting. -/
theorem C10_cache_present (cfg : MovingMap.Config)
    (mkMap : ℚ × ℚ → ℕ → ℚ × ℚ → GMap) (renderer : GMap → Raster)
    (azimuth : Option ℚ) (location : GeoPoint) (s : MovingMap.State)
    (hInv : MovingMap.Inv s) :
    MovingMap.Inv MovingMap.initState ∧
    ∃ s' evs, MovingMap.draw cfg mkMap renderer azimuth location s =
        some (s', evs) ∧ MovingMap.Inv s' := by
  refine ⟨by intro h; simp [MovingMap.initState] at h, ?_⟩
  obtain ⟨olon, olat⟩ := location
  cases olon with
  | none => exact ⟨s, [], rfl, hInv⟩
  | some lon =>
    cases olat with
    | none => exact ⟨s, [], rfl, hInv⟩
    | some lat =>
      cases hr : (PerceptibleMovementCheck.moved s.perceptible
          (mkMap (lon, lat) cfg.zoom
            ((MovingMap.hypotenuse cfg.size : ℚ), (MovingMap.hypotenuse cfg.size : ℚ)))
          ⟨lon, lat⟩).1 with
      | true =>
        refine ⟨⟨(PerceptibleMovementCheck.moved s.perceptible
            (mkMap (lon, lat) cfg.zoom
              ((MovingMap.hypotenuse cfg.size : ℚ), (MovingMap.hypotenuse cfg.size : ℚ)))
            ⟨lon, lat⟩).2,
          some (MovingMap._redraw cfg renderer azimuth
            (mkMap (lon, lat) cfg.zoom
              ((MovingMap.hypotenuse cfg.size : ℚ), (MovingMap.hypotenuse cfg.size : ℚ))))⟩,
          [Event.paste (MovingMap._redraw cfg renderer azimuth
            (mkMap (lon, lat) cfg.zoom
              ((MovingMap.hypotenuse cfg.size : ℚ), (MovingMap.hypotenuse cfg.size : ℚ))))
            cfg.at_pos], ?_, fun _ => rfl⟩
        unfold MovingMap.draw
        simp [hr]
      | false =>
        have hf := PerceptibleMovementCheck.moved_false_eq _ _ _ hr
        have hcs : s.cached.isSome = true := hInv hf.2
        obtain ⟨c, hc⟩ := Option.isSome_iff_exists.mp hcs
        refine ⟨⟨s.perceptible, some c⟩, [Event.paste c cfg.at_pos], ?_,
          fun _ => rfl⟩
        unfold MovingMap.draw
        simp [hr, hf.1, hc]

/-- Witness for C10 at the initial state (where the invariant holds
vacuously) with a defined position. -/
theorem C10_cache_present_witness :
    MovingMap.Inv MovingMap.initState ∧
    ∃ s' evs, MovingMap.draw cfg1 mkMap1 renderer1 none ⟨some 0, some 0⟩
        MovingMap.initState = some (s', evs) ∧ MovingMap.Inv s' :=
  C10_cache_present cfg1 mkMap1 renderer1 none ⟨some 0, some 0⟩
    MovingMap.initState (by intro h; simp [MovingMap.initState] at h)

end GoproMap
